import Mathlib

/-!
Shallow embedding of the credit-card helpers of the go.stripe repository
(`LuhnValid` and `CardType` in card.go), together with proofs of the
specification's claims about them.

A Go string is modelled as a `List Char`.  A Go string slice `card[0:n]`
that would be out of range — a run-time panic in Go — is modelled by
`Option`: `none` stands for the panic.  `LuhnValid` returns the pair
`(bool, error)` of the Go function, the error component holding the
offending character when `strconv.Atoi` fails.
-/

namespace Stripe

/-- Card brand constant from card.go. -/
def AmericanExpress : String := "American Express"

/-- Card brand constant from card.go. -/
def DinersClub : String := "Diners Club"

/-- Card brand constant from card.go. -/
def Discover : String := "Discover"

/-- Card brand constant from card.go. -/
def JCB : String := "JCB"

/-- Card brand constant from card.go. -/
def MasterCard : String := "MasterCard"

/-- Card brand constant from card.go. -/
def Visa : String := "Visa"

/-- Card brand constant from card.go. -/
def UnknownCard : String := "Unknown"

/-- Model of `strconv.Atoi` applied to a single-character string, as done by
`LuhnValid` on each element of `strings.Split(card, "")`: the digit value for
a decimal digit character, `none` (an error) otherwise. -/
def atoi1 (c : Char) : Option Nat :=
  if c.isDigit then some (c.toNat - 48) else none

/-- The amount the `switch` inside the loop of `LuhnValid` adds to `sum` for
one digit: `digit*2 - 9` when `even && digit > 4`, `digit*2` when `even`,
and `digit` otherwise. -/
def contrib (even : Bool) (digit : Nat) : Nat :=
  if even ∧ digit > 4 then digit * 2 - 9
  else if even then digit * 2
  else digit

/-- The loop of `LuhnValid`: it walks the digit list (already reversed, so the
rightmost digit comes first) with the alternating `even` flag, starting at
`false`, and the running `sum`.  On a character `strconv.Atoi` rejects it
returns `(false, err)` at once; after the loop it returns
`(sum % 10 == 0, nil)`. -/
def luhnLoop : List Char → Bool → Nat → Bool × Option Char
  | [], _, sum => (decide (sum % 10 = 0), none)
  | c :: cs, even, sum =>
    match atoi1 c with
    | none => (false, some c)
    | some digit => luhnLoop cs (!even) (sum + contrib even digit)

/-- `LuhnValid` from card.go: Luhn (mod 10) checksum of a card number,
iterating through the digits in reverse order. -/
def LuhnValid (card : List Char) : Bool × Option Char :=
  luhnLoop card.reverse false 0

/-- Go string slice `card[0:n]`: the first `n` characters when the string is
long enough, `none` (modelling the out-of-range panic) otherwise. -/
def slice (card : List Char) (n : Nat) : Option (List Char) :=
  if n ≤ card.length then some (card.take n) else none

/-- `CardType` from card.go: determines the card brand from leading digits by
nested `switch` statements over the slices `card[0:1]`, `card[0:4]`,
`card[0:2]` and `card[0:3]`; falls out to `UnknownCard` when no case
matches.  A `none` result models the panic of an out-of-range slice. -/
def CardType (card : List Char) : Option String :=
  match slice card 1 with
  | none => none
  | some p1 =>
    if p1 = ['4'] then some Visa
    else if p1 = ['2'] ∨ p1 = ['1'] then
      match slice card 4 with
      | none => none
      | some p4 =>
        if p4 = ['2', '1', '3', '1'] ∨ p4 = ['1', '8', '0', '0'] then some JCB
        else some UnknownCard
    else if p1 = ['6'] then
      match slice card 4 with
      | none => none
      | some p4 =>
        if p4 = ['6', '0', '1', '1'] then some Discover
        else some UnknownCard
    else if p1 = ['5'] then
      match slice card 2 with
      | none => none
      | some p2 =>
        if p2 = ['5', '1'] ∨ p2 = ['5', '2'] ∨ p2 = ['5', '3'] ∨
           p2 = ['5', '4'] ∨ p2 = ['5', '5'] then some MasterCard
        else some UnknownCard
    else if p1 = ['3'] then
      match slice card 2 with
      | none => none
      | some p2 =>
        if p2 = ['3', '4'] ∨ p2 = ['3', '7'] then some AmericanExpress
        else if p2 = ['3', '6'] then some DinersClub
        else if p2 = ['3', '0'] then
          match slice card 3 with
          | none => none
          | some p3 =>
            if p3 = ['3', '0', '0'] ∨ p3 = ['3', '0', '1'] ∨ p3 = ['3', '0', '2'] ∨
               p3 = ['3', '0', '3'] ∨ p3 = ['3', '0', '4'] ∨ p3 = ['3', '0', '5'] then
              some DinersClub
            else some UnknownCard
        else some JCB
    else some UnknownCard

/-- The contribution of the spec's step 3, following its words: with the
doubling flag set, `digit*2`, reduced by 9 when the product exceeds 9;
with the flag not set, the digit unchanged. -/
def specContrib (flag : Bool) (digit : Nat) : Nat :=
  if flag then (if digit * 2 > 9 then digit * 2 - 9 else digit * 2) else digit

/-- The Luhn sum as the spec describes it, over the digit values listed from
rightmost to leftmost, with the alternating doubling flag. -/
def specLuhnSum : List Nat → Bool → Nat
  | [], _ => 0
  | d :: ds, flag => specContrib flag d + specLuhnSum ds (!flag)

/-- The spec's Luhn sum of a card string: digit values taken from rightmost to
leftmost, the doubling flag `false` at the rightmost digit. -/
def specLuhnSumOf (card : List Char) : Nat :=
  specLuhnSum (card.reverse.map fun c => c.toNat - 48) false

/-- The code-side Luhn sum, separated from the loop for reasoning: what
`luhnLoop` adds to its accumulator over an all-digit list. -/
def luhnSum : List Char → Bool → Nat
  | [], _ => 0
  | c :: cs, even => contrib even (c.toNat - 48) + luhnSum cs (!even)

/-- The value of the alternating flag after `n` steps of the loop. -/
def flagAfter : Nat → Bool → Bool
  | 0, e => e
  | n + 1, e => flagAfter n (!e)

theorem luhnLoop_digits (l : List Char) (e : Bool) (s : Nat)
    (h : ∀ c ∈ l, c.isDigit) :
    luhnLoop l e s = (decide ((s + luhnSum l e) % 10 = 0), none) := by
  induction l generalizing e s with
  | nil => simp [luhnLoop, luhnSum]
  | cons c cs ih =>
    have hc : c.isDigit := h c (List.mem_cons_self c cs)
    have hcs : ∀ x ∈ cs, x.isDigit := fun x hx => h x (List.mem_cons_of_mem c hx)
    simp only [luhnLoop, atoi1, hc, if_pos, luhnSum, ih (!e) _ hcs]
    rw [Nat.add_assoc]

theorem luhnLoop_err_iff (l : List Char) (e : Bool) (s : Nat) :
    (luhnLoop l e s).2 = none ↔ ∀ c ∈ l, c.isDigit := by
  induction l generalizing e s with
  | nil => simp [luhnLoop]
  | cons c cs ih =>
    by_cases hc : c.isDigit
    · simp only [luhnLoop, atoi1, hc, if_pos]
      simp [ih, hc]
    · simp [luhnLoop, atoi1, hc]

theorem luhnLoop_fst_of_err (l : List Char) (e : Bool) (s : Nat)
    (h : (luhnLoop l e s).2 ≠ none) : (luhnLoop l e s).1 = false := by
  induction l generalizing e s with
  | nil => simp [luhnLoop] at h
  | cons c cs ih =>
    by_cases hc : c.isDigit
    · simp only [luhnLoop, atoi1, hc, if_pos] at h ⊢
      exact ih _ _ h
    · simp [luhnLoop, atoi1, hc]

theorem isDigit_bounds (c : Char) (h : c.isDigit) :
    48 ≤ c.toNat ∧ c.toNat ≤ 57 := by
  simpa [Char.isDigit] using h

theorem contrib_eq_specContrib (e : Bool) (d : Nat) :
    contrib e d = specContrib e d := by
  cases e
  · simp [contrib, specContrib]
  · simp only [contrib, specContrib, eq_self_iff_true, true_and, if_true]
    split_ifs <;> omega

theorem luhnSum_eq_specLuhnSum (l : List Char) (e : Bool) :
    luhnSum l e = specLuhnSum (l.map fun c => c.toNat - 48) e := by
  induction l generalizing e with
  | nil => simp [luhnSum, specLuhnSum]
  | cons c cs ih => simp [luhnSum, specLuhnSum, contrib_eq_specContrib, ih]

theorem luhnSum_append (a b : List Char) (e : Bool) :
    luhnSum (a ++ b) e = luhnSum a e + luhnSum b (flagAfter a.length e) := by
  induction a generalizing e with
  | nil => simp [luhnSum, flagAfter]
  | cons c cs ih => simp [luhnSum, flagAfter, ih, Nat.add_assoc]

/-- C1: on all-digit input `LuhnValid` reports validity exactly when the Luhn
sum of the spec — digits taken from rightmost to leftmost, the doubling flag
false at the rightmost digit, `digit*2` reduced by 9 when it exceeds 9 — is
divisible by 10. -/
theorem luhnValid_iff_spec (card : List Char) (h : ∀ c ∈ card, c.isDigit) :
    (LuhnValid card).1 = true ↔ specLuhnSumOf card % 10 = 0 := by
  rw [LuhnValid,
    luhnLoop_digits _ _ _ (fun c hc => h c (List.mem_reverse.1 hc)),
    luhnSum_eq_specLuhnSum]
  simp [specLuhnSumOf]

/-- C1, witness at a concrete input. -/
theorem luhnValid_iff_spec_witness :
    (LuhnValid ['4', '2']).1 = true ↔ specLuhnSumOf ['4', '2'] % 10 = 0 :=
  luhnValid_iff_spec ['4', '2'] (by decide)

/-- C5: `LuhnValid` returns a non-nil error exactly when some character of
the input is not a decimal digit, and whenever the error is non-nil the
boolean result is false — non-digits are never treated as zero. -/
theorem luhnValid_err_iff (card : List Char) :
    ((LuhnValid card).2 ≠ none ↔ ∃ c ∈ card, ¬ c.isDigit) ∧
    ((LuhnValid card).2 ≠ none → (LuhnValid card).1 = false) := by
  constructor
  · rw [ne_eq, LuhnValid, luhnLoop_err_iff]
    constructor
    · intro h
      push_neg at h
      simpa using h
    · intro ⟨c, hc, hnd⟩ h
      exact hnd (h c (List.mem_reverse.2 hc))
  · exact luhnLoop_fst_of_err _ _ _

/-- C5, witness at a concrete input. -/
theorem luhnValid_err_iff_witness :
    (LuhnValid ['4', 'a']).2 ≠ none ∧ (LuhnValid ['4', 'a']).1 = false :=
  ⟨by decide, (luhnValid_err_iff ['4', 'a']).2 (by decide)⟩

/-- C8: on a single decimal digit `LuhnValid` returns a nil error, and the
lone digit is never doubled, so the result is valid exactly when the digit
is 0. -/
theorem luhnValid_single_digit (c : Char) (h : c.isDigit) :
    (LuhnValid [c]).2 = none ∧
      ((LuhnValid [c]).1 = true ↔ c.toNat - 48 = 0) := by
  have hb := isDigit_bounds c h
  constructor
  · simp [LuhnValid, luhnLoop, atoi1, h]
  · simp [LuhnValid, luhnLoop, atoi1, h, contrib]
    omega

/-- C8, witness at a concrete input. -/
theorem luhnValid_single_digit_witness :
    (LuhnValid ['0']).2 = none ∧
      ((LuhnValid ['0']).1 = true ↔ '0'.toNat - 48 = 0) :=
  luhnValid_single_digit '0' (by decide)

/-- C10: prepending a `'0'` character to a digit string does not change the
result of `LuhnValid`: the zero digit contributes 0 whether doubled or not,
and the flags of the original digits, assigned from the right, are
unchanged. -/
theorem luhnValid_cons_zero (s : List Char) (h : ∀ c ∈ s, c.isDigit) :
    LuhnValid ('0' :: s) = LuhnValid s := by
  have h0 : ∀ c ∈ ('0' :: s), c.isDigit := by
    intro c hc
    rcases List.mem_cons.1 hc with rfl | hc
    · decide
    · exact h c hc
  rw [LuhnValid, LuhnValid,
    luhnLoop_digits _ _ _ (fun c hc => h0 c (List.mem_reverse.1 hc)),
    luhnLoop_digits _ _ _ (fun c hc => h c (List.mem_reverse.1 hc))]
  have : ('0' :: s).reverse = s.reverse ++ ['0'] := by simp
  rw [this, luhnSum_append]
  have hz : ∀ e, luhnSum ['0'] e = 0 := by
    intro e
    cases e <;> simp [luhnSum, contrib]
  rw [hz, Nat.add_zero]

/-- C10, witness at a concrete input. -/
theorem luhnValid_cons_zero_witness :
    LuhnValid ('0' :: ['4', '2']) = LuhnValid ['4', '2'] :=
  luhnValid_cons_zero ['4', '2'] (by decide)

theorem luhnValid_fst_digits (card : List Char) (h : ∀ c ∈ card, c.isDigit) :
    (LuhnValid card).1 = decide (luhnSum card.reverse false % 10 = 0) := by
  rw [LuhnValid, luhnLoop_digits _ _ _ (fun c hc => h c (List.mem_reverse.1 hc))]
  simp

theorem contrib_le_nine (e : Bool) (d : Nat) (hd : d ≤ 9) : contrib e d ≤ 9 := by
  cases e
  · simpa [contrib] using hd
  · simp only [contrib, eq_self_iff_true, true_and, if_true]
    split_ifs <;> omega

theorem contrib_inj (e : Bool) (x y : Nat) (hx : x ≤ 9) (hy : y ≤ 9)
    (h : contrib e x = contrib e y) : x = y := by
  cases e
  · simpa [contrib] using h
  · simp only [contrib, eq_self_iff_true, true_and, if_true] at h
    split_ifs at h <;> omega

theorem char_toNat_inj (c d : Char) (h : c.toNat = d.toNat) : c = d := by
  rw [← Char.ofNat_toNat c, ← Char.ofNat_toNat d, h]

/-- C6: the Luhn check detects every single-digit mutation: if a digit string
validates and one digit is replaced by a different digit, the result no
longer validates. -/
theorem luhn_detects_digit_change (card : List Char) (i : Nat) (d : Char)
    (hdig : ∀ c ∈ card, c.isDigit) (hi : i < card.length) (hd : d.isDigit)
    (hne : d ≠ card.get ⟨i, hi⟩) (hvalid : (LuhnValid card).1 = true) :
    (LuhnValid (card.set i d)).1 = false := by
  obtain ⟨u, v, c, hdecomp, hsetd, hcmem⟩ :
      ∃ u v c, card = u ++ c :: v ∧ card.set i d = u ++ d :: v ∧
        c = card.get ⟨i, hi⟩ := by
    refine ⟨card.take i, card.drop (i + 1), card.get ⟨i, hi⟩, ?_, ?_, rfl⟩
    · conv_lhs => rw [← List.take_append_drop i card]
      congr 1
      rw [List.get_eq_getElem]
      exact (List.getElem_cons_drop card i hi).symm
    · exact List.set_eq_take_cons_drop d hi
  have hcdig : c.isDigit := hcmem ▸ hdig _ (List.get_mem card i hi)
  have hsetdig : ∀ x ∈ card.set i d, x.isDigit := by
    intro x hx
    rcases List.mem_or_eq_of_mem_set hx with hmem | rfl
    · exact hdig x hmem
    · exact hd
  rw [luhnValid_fst_digits _ hsetdig]
  rw [luhnValid_fst_digits _ hdig] at hvalid
  simp only [decide_eq_true_eq] at hvalid
  simp only [decide_eq_false_iff_not]
  intro hvalid'
  rw [hdecomp] at hvalid
  rw [hsetd] at hvalid'
  have hrevc : (u ++ c :: v).reverse = v.reverse ++ c :: u.reverse := by simp
  have hrevd : (u ++ d :: v).reverse = v.reverse ++ d :: u.reverse := by simp
  rw [hrevc, luhnSum_append] at hvalid
  rw [hrevd, luhnSum_append] at hvalid'
  simp only [luhnSum] at hvalid hvalid'
  have hcb := isDigit_bounds c hcdig
  have hdb := isDigit_bounds d hd
  have h1 : contrib (flagAfter v.reverse.length false) (c.toNat - 48) ≤ 9 :=
    contrib_le_nine _ _ (by omega)
  have h2 : contrib (flagAfter v.reverse.length false) (d.toNat - 48) ≤ 9 :=
    contrib_le_nine _ _ (by omega)
  have heq : contrib (flagAfter v.reverse.length false) (c.toNat - 48) =
      contrib (flagAfter v.reverse.length false) (d.toNat - 48) := by omega
  have hval : c.toNat - 48 = d.toNat - 48 :=
    contrib_inj _ _ _ (by omega) (by omega) heq
  have hcd : c = d := char_toNat_inj c d (by omega)
  exact hne (hcd.symm.trans hcmem)

/-- C6, witness at a concrete input: `"42"` validates, and changing its first
digit to `'5'` breaks validation. -/
theorem luhn_detects_digit_change_witness :
    (LuhnValid ((['4', '2'] : List Char).set 0 '5')).1 = false :=
  luhn_detects_digit_change ['4', '2'] 0 '5' (by decide) (by decide) (by decide)
    (by decide) (by decide)

/-- C7 counterexample: on the empty string the loop body never runs, the sum
stays 0, and `LuhnValid` reports the input as valid, not invalid. -/
theorem luhnValid_empty_is_true : (LuhnValid []).1 = true := by decide

/-- C7 amended: `LuhnValid` applied to the empty string returns `(true, nil)`:
the empty sum 0 is divisible by 10 and no parse error occurs. -/
theorem luhnValid_empty : LuhnValid [] = (true, none) := by decide

/-- C2 counterexample: `CardType "3"` does not return JCB: the outer switch
selects the `"3"` case from `card[0:1]` and then slices `card[0:2]` on a
one-character string, which is out of range — the function panics (`none`)
rather than returning a brand label. -/
theorem cardType_three_panics : CardType ['3'] = none := by decide

/-- C2 amended: on every input of length at least 4 all the slices `CardType`
takes are in range, so it returns a brand label without panicking; on
shorter inputs the prefix tests can index past the string's length, and in
particular `CardType "3"` panics instead of returning JCB. -/
theorem cardType_isSome_of_long (card : List Char) (h : 4 ≤ card.length) :
    (CardType card).isSome = true := by
  have h1 : slice card 1 = some (card.take 1) := by
    unfold slice; rw [if_pos (by omega)]
  have h2 : slice card 2 = some (card.take 2) := by
    unfold slice; rw [if_pos (by omega)]
  have h3 : slice card 3 = some (card.take 3) := by
    unfold slice; rw [if_pos (by omega)]
  have h4 : slice card 4 = some (card.take 4) := by
    unfold slice; rw [if_pos (by omega)]
  simp only [CardType, h1, h2, h3, h4]
  split_ifs <;> simp

/-- C2 amended, witness at a concrete input. -/
theorem cardType_isSome_of_long_witness :
    4 ≤ (['9', '9', '9', '9'] : List Char).length ∧
      (CardType ['9', '9', '9', '9']).isSome = true :=
  ⟨by decide, cardType_isSome_of_long ['9', '9', '9', '9'] (by decide)⟩

/-- C4 counterexample: `"3060"` starts with `'3'`, its first two characters
are none of `34`, `37`, `36`, and its first three are not in `300`–`305`,
yet `CardType` returns Unknown, not JCB: the `"30"` case of the middle
switch swallows the input before the `default: return JCB` branch. -/
theorem cardType_3060_unknown :
    (['3', '0', '6', '0'] : List Char).take 1 = ['3'] ∧
    (['3', '0', '6', '0'] : List Char).take 2 ≠ ['3', '4'] ∧
    (['3', '0', '6', '0'] : List Char).take 2 ≠ ['3', '7'] ∧
    (['3', '0', '6', '0'] : List Char).take 2 ≠ ['3', '6'] ∧
    (∀ k, 0 ≤ k → k ≤ 5 →
      (['3', '0', '6', '0'] : List Char).take 3 ≠ ['3', '0', Char.ofNat (48 + k)]) ∧
    CardType ['3', '0', '6', '0'] = some UnknownCard ∧
    UnknownCard ≠ JCB := by
  refine ⟨by decide, by decide, by decide, by decide, ?_, by decide, by decide⟩
  intro k _ hk
  interval_cases k <;> decide

/-- C4 amended: for inputs of length at least 4 whose first character is `'3'`
and whose first two characters are none of `34`, `37`, `36` and `30`,
`CardType` returns JCB; when the first two characters are `30` but the first
three are not `300`–`305`, `CardType` returns Unknown instead of JCB. -/
theorem cardType_three_fallback (card : List Char) (h : 4 ≤ card.length)
    (h1 : card.take 1 = ['3']) :
    (card.take 2 ≠ ['3', '4'] → card.take 2 ≠ ['3', '7'] →
      card.take 2 ≠ ['3', '6'] → card.take 2 ≠ ['3', '0'] →
      CardType card = some JCB) ∧
    (card.take 2 = ['3', '0'] →
      card.take 3 ≠ ['3', '0', '0'] → card.take 3 ≠ ['3', '0', '1'] →
      card.take 3 ≠ ['3', '0', '2'] → card.take 3 ≠ ['3', '0', '3'] →
      card.take 3 ≠ ['3', '0', '4'] → card.take 3 ≠ ['3', '0', '5'] →
      CardType card = some UnknownCard) := by
  have hs1 : slice card 1 = some (card.take 1) := by
    unfold slice; rw [if_pos (by omega)]
  have hs2 : slice card 2 = some (card.take 2) := by
    unfold slice; rw [if_pos (by omega)]
  have hs3 : slice card 3 = some (card.take 3) := by
    unfold slice; rw [if_pos (by omega)]
  constructor
  · intro n34 n37 n36 n30
    simp only [CardType, hs1, hs2, h1]
    simp [n34, n37, n36, n30]
  · intro h30 n0 n1 n2 n3 n4 n5
    simp only [CardType, hs1, hs2, hs3, h1, h30]
    simp [n0, n1, n2, n3, n4, n5]

/-- C4 amended, witness at a concrete input. -/
theorem cardType_three_fallback_witness :
    CardType ['3', '9', '9', '9'] = some JCB ∧
      CardType ['3', '0', '6', '0'] = some UnknownCard :=
  ⟨(cardType_three_fallback ['3', '9', '9', '9'] (by decide) (by decide)).1
      (by decide) (by decide) (by decide) (by decide),
    (cardType_three_fallback ['3', '0', '6', '0'] (by decide) (by decide)).2
      (by decide) (by decide) (by decide) (by decide) (by decide) (by decide)
      (by decide)⟩

theorem slice_of_le (card : List Char) (n : Nat) (h : n ≤ card.length) :
    slice card n = some (card.take n) := by
  unfold slice
  rw [if_pos h]

/-- C3: the classification table of `CardType` on inputs of length at least
4: Visa for a leading `4`; JCB for `2131` and `1800`; Discover for `6011`;
MasterCard for `51`–`55`; American Express for `34` and `37`; Diners Club
for `36` and `300`–`305`; Unknown when the first character is none of
`1`–`6`, and Unknown when a leading `1`, `2`, `5` or `6` matches none of its
listed prefixes. -/
theorem cardType_classification (card : List Char) (h : 4 ≤ card.length) :
    (card.take 1 = ['4'] → CardType card = some Visa) ∧
    (card.take 4 = ['2', '1', '3', '1'] ∨ card.take 4 = ['1', '8', '0', '0'] →
      CardType card = some JCB) ∧
    (card.take 4 = ['6', '0', '1', '1'] → CardType card = some Discover) ∧
    (card.take 2 = ['5', '1'] ∨ card.take 2 = ['5', '2'] ∨ card.take 2 = ['5', '3'] ∨
      card.take 2 = ['5', '4'] ∨ card.take 2 = ['5', '5'] →
      CardType card = some MasterCard) ∧
    (card.take 2 = ['3', '4'] ∨ card.take 2 = ['3', '7'] →
      CardType card = some AmericanExpress) ∧
    (card.take 2 = ['3', '6'] ∨
      card.take 3 = ['3', '0', '0'] ∨ card.take 3 = ['3', '0', '1'] ∨
      card.take 3 = ['3', '0', '2'] ∨ card.take 3 = ['3', '0', '3'] ∨
      card.take 3 = ['3', '0', '4'] ∨ card.take 3 = ['3', '0', '5'] →
      CardType card = some DinersClub) ∧
    (card.take 1 ≠ ['1'] → card.take 1 ≠ ['2'] → card.take 1 ≠ ['3'] →
      card.take 1 ≠ ['4'] → card.take 1 ≠ ['5'] → card.take 1 ≠ ['6'] →
      CardType card = some UnknownCard) ∧
    (card.take 1 = ['1'] → card.take 4 ≠ ['1', '8', '0', '0'] →
      CardType card = some UnknownCard) ∧
    (card.take 1 = ['2'] → card.take 4 ≠ ['2', '1', '3', '1'] →
      CardType card = some UnknownCard) ∧
    (card.take 1 = ['5'] → card.take 2 ≠ ['5', '1'] → card.take 2 ≠ ['5', '2'] →
      card.take 2 ≠ ['5', '3'] → card.take 2 ≠ ['5', '4'] →
      card.take 2 ≠ ['5', '5'] → CardType card = some UnknownCard) ∧
    (card.take 1 = ['6'] → card.take 4 ≠ ['6', '0', '1', '1'] →
      CardType card = some UnknownCard) := by
  rcases card with _ | ⟨c0, card⟩
  · simp at h
  rcases card with _ | ⟨c1, card⟩
  · simp at h
  rcases card with _ | ⟨c2, card⟩
  · simp at h
  rcases card with _ | ⟨c3, t⟩
  · simp at h
  have hs1 : slice (c0 :: c1 :: c2 :: c3 :: t) 1 = some [c0] :=
    slice_of_le _ _ (by simp)
  have hs2 : slice (c0 :: c1 :: c2 :: c3 :: t) 2 = some [c0, c1] :=
    slice_of_le _ _ (by simp)
  have hs3 : slice (c0 :: c1 :: c2 :: c3 :: t) 3 = some [c0, c1, c2] :=
    slice_of_le _ _ (by simp)
  have hs4 : slice (c0 :: c1 :: c2 :: c3 :: t) 4 = some [c0, c1, c2, c3] :=
    slice_of_le _ _ (by simp)
  have ht1 : (c0 :: c1 :: c2 :: c3 :: t).take 1 = [c0] := rfl
  have ht2 : (c0 :: c1 :: c2 :: c3 :: t).take 2 = [c0, c1] := rfl
  have ht3 : (c0 :: c1 :: c2 :: c3 :: t).take 3 = [c0, c1, c2] := rfl
  have ht4 : (c0 :: c1 :: c2 :: c3 :: t).take 4 = [c0, c1, c2, c3] := rfl
  refine ⟨?_, ?_, ?_, ?_, ?_, ?_, ?_, ?_, ?_, ?_, ?_⟩
  · intro h4
    rw [ht1] at h4
    simp at h4
    subst h4
    simp [CardType, hs1, hs2, hs3, hs4]
  · rintro (h4 | h4) <;>
    · rw [ht4] at h4
      simp at h4
      obtain ⟨rfl, rfl, rfl, rfl⟩ := h4
      simp [CardType, hs1, hs2, hs3, hs4]
  · intro h4
    rw [ht4] at h4
    simp at h4
    obtain ⟨rfl, rfl, rfl, rfl⟩ := h4
    simp [CardType, hs1, hs2, hs3, hs4]
  · rintro (h2 | h2 | h2 | h2 | h2) <;>
    · rw [ht2] at h2
      simp at h2
      obtain ⟨rfl, rfl⟩ := h2
      simp [CardType, hs1, hs2, hs3, hs4]
  · rintro (h2 | h2) <;>
    · rw [ht2] at h2
      simp at h2
      obtain ⟨rfl, rfl⟩ := h2
      simp [CardType, hs1, hs2, hs3, hs4]
  · rintro (h2 | h3 | h3 | h3 | h3 | h3 | h3)
    · rw [ht2] at h2
      simp at h2
      obtain ⟨rfl, rfl⟩ := h2
      simp [CardType, hs1, hs2, hs3, hs4]
    all_goals
      rw [ht3] at h3
      simp at h3
      obtain ⟨rfl, rfl, rfl⟩ := h3
      simp [CardType, hs1, hs2, hs3, hs4]
  · intro hn1 hn2 hn3 hn4 hn5 hn6
    rw [ht1] at hn1 hn2 hn3 hn4 hn5 hn6
    simp at hn1 hn2 hn3 hn4 hn5 hn6
    simp [CardType, hs1, hs2, hs3, hs4, hn1, hn2, hn3, hn4, hn5, hn6]
  · intro h1 hn
    rw [ht1] at h1
    simp at h1
    subst h1
    rw [ht4] at hn
    simp at hn
    simp [CardType, hs1, hs2, hs3, hs4, hn]
    intro a b c
    exact absurd c (hn a b)
  · intro h1 hn
    rw [ht1] at h1
    simp at h1
    subst h1
    rw [ht4] at hn
    simp at hn
    simp [CardType, hs1, hs2, hs3, hs4, hn]
    intro a b c
    exact absurd c (hn a b)
  · intro h1 hn1 hn2 hn3 hn4 hn5
    rw [ht1] at h1
    simp at h1
    subst h1
    rw [ht2] at hn1 hn2 hn3 hn4 hn5
    simp at hn1 hn2 hn3 hn4 hn5
    simp [CardType, hs1, hs2, hs3, hs4, hn1, hn2, hn3, hn4, hn5]
  · intro h1 hn
    rw [ht1] at h1
    simp at h1
    subst h1
    rw [ht4] at hn
    simp at hn
    simp [CardType, hs1, hs2, hs3, hs4, hn]
    intro a b c
    exact absurd c (hn a b)

/-- C3, witness at concrete inputs: a leading `4` classifies as Visa. -/
theorem cardType_classification_witness :
    CardType ['4', '0', '0', '0'] = some Visa :=
  (cardType_classification ['4', '0', '0', '0'] (by decide)).1 (by decide)

/-- C9: the concrete test vectors: `4242424242424242` validates,
`4242424242424241` does not, and the three brand lookups return Discover,
American Express and Unknown. -/
theorem concrete_vectors :
    LuhnValid ("4242424242424242".data) = (true, none) ∧
    LuhnValid ("4242424242424241".data) = (false, none) ∧
    CardType ("6011000000000004".data) = some Discover ∧
    CardType ("341111111111111".data) = some AmericanExpress ∧
    CardType ("0000000000000000".data) = some UnknownCard := by
  refine ⟨?_, ?_, ?_, ?_, ?_⟩ <;> decide

end Stripe
